import Mathlib

/-
Verification of the multi-source content retrieval core of the
news_push_with_a_twist repository.

The Python code under src/app/agent/sources (base.py, manager.py,
wikipedia_source.py, reddit_source.py, hackernews_source.py,
tavily_source.py) and the tools (hacker_news.py, news_tools.py) is
shallowly embedded below.  External effects (HTTP requests, the Reddit
client, the Tavily client, the current date) are made explicit as
environment records; a Python function that can raise is embedded as a
function into `Except String _` where `Except.error` marks a raised
exception and `Except.ok` a normal return.
-/

set_option maxRecDepth 4000

namespace NewsCore

/-- Values stored in a NewsItem metadata dictionary (base.py stores
strings and ints there). -/
inductive MetaVal where
  | s (v : String)
  | i (v : Int)
deriving DecidableEq, Repr

/-- A metadata dictionary, modelled as an association list. -/
abbrev Metadata := List (String × MetaVal)

/-- Embedding of the NewsItem dataclass (base.py lines 9-22).  The raw
`metadata` field is `Option Metadata` because the Python dataclass field
defaults to None; `__post_init__` replaces None by an empty dict. -/
structure NewsItem where
  title : String
  url : Option String := none
  description : Option String := none
  source_name : String := ""
  category : String := ""
  published_at : Option Nat := none
  metadata : Option Metadata := none
deriving DecidableEq, Repr

/-- Embedding of NewsItem.__post_init__ (base.py lines 20-22): a None
metadata field is replaced by an empty dict. -/
def postInit (it : NewsItem) : NewsItem :=
  match it.metadata with
  | none => { it with metadata := some [] }
  | some _ => it

/-- Constructing a NewsItem in Python always runs __post_init__. -/
def mkNewsItem (title : String) (url description : Option String)
    (source_name category : String) (published_at : Option Nat)
    (metadata : Option Metadata) : NewsItem :=
  postInit { title := title, url := url, description := description,
             source_name := source_name, category := category,
             published_at := published_at, metadata := metadata }

/-- Items carried by an `Except`-valued fetch; an exception carries no
items. -/
def exceptItems (r : Except String (List NewsItem)) : List NewsItem :=
  match r with
  | .ok items => items
  | .error _ => []

/-- Whether an `Except`-valued computation returned normally. -/
def isOkE {α : Type} (r : Except String α) : Bool :=
  match r with
  | .ok _ => true
  | .error _ => false

/-! ## Wikipedia source (wikipedia_source.py) -/

/-- One page attached to an on-this-day event; the chain
`page.get(content_urls, \x7b\x7d).get(desktop, \x7b\x7d).get(page)` of
wikipedia_source.py line 103 collapses to an optional URL. -/
structure OtdPage where
  desktopPage : Option String
deriving DecidableEq, Repr

/-- One event of the Wikimedia on-this-day feed as the code reads it
(wikipedia_source.py lines 97-100): text, year and pages. -/
structure OtdEvent where
  text : String
  year : Int
  pages : List OtdPage
deriving DecidableEq, Repr

/-- External world seen by WikipediaSource: the outcome of the
on-this-day request, the outcome of the current-events request, the
current date components and clock. -/
structure WikiEnv where
  otd : Except String (List OtdEvent)
  current : Except String Unit
  month : String
  day : String
  now : Nat

/-- WikipediaSource.categories (wikipedia_source.py line 20). -/
def wikiCategories : List String := ["news", "history", "fun", "events"]

/-- WikipediaSource.is_available (wikipedia_source.py lines 24-30):
always True. -/
def wikiIsAvailable : Bool := true

/-- Conversion of one on-this-day event to a NewsItem
(wikipedia_source.py lines 97-118). -/
def otdEventToItem (env : WikiEnv) (event : OtdEvent) : NewsItem :=
  let url : Option String :=
    match event.pages with
    | [] => none
    | p :: _ => p.desktopPage
  mkNewsItem ("In " ++ toString event.year ++ ": " ++ event.text)
    url (some event.text) "wikipedia" "history" none
    (some [("year", .i event.year), ("type", .s "historical_event"),
           ("date", .s (env.month ++ "/" ++ env.day))])

/-- WikipediaSource._fetch_on_this_day (wikipedia_source.py lines
66-125): on success, the first max_items events are converted; any
exception is caught and an empty list returned. -/
def fetchOnThisDay (env : WikiEnv) (max_items : Nat) : List NewsItem :=
  match env.otd with
  | .error _ => []
  | .ok events => (events.take max_items).map (otdEventToItem env)

/-- The single aggregated current-events item built at
wikipedia_source.py lines 165-175. -/
def currentEventsItem (env : WikiEnv) : NewsItem :=
  mkNewsItem "Wikipedia Current Events"
    (some "https://en.wikipedia.org/wiki/Portal:Current_events")
    (some "Todays notable news events from around the world, as documented by Wikipedia editors.")
    "wikipedia" "news" (some env.now)
    (some [("type", .s "current_events_portal")])

/-- WikipediaSource._fetch_current_events (wikipedia_source.py lines
127-183): on success a single aggregated item is returned regardless of
max_items; any exception is caught and an empty list returned. -/
def fetchCurrentEvents (env : WikiEnv) (_max_items : Nat) : List NewsItem :=
  match env.current with
  | .error _ => []
  | .ok _ => [currentEventsItem env]

/-- WikipediaSource.fetch (wikipedia_source.py lines 32-64): category
guard, availability guard, then dispatch on the category, with a final
fallback branch to the on-this-day strategy for any other category. -/
def wikipediaFetch (env : WikiEnv) (category : String) (max_items : Nat) :
    Except String (List NewsItem) :=
  if ¬ (wikiCategories.contains category) then
    .error ("Category " ++ category ++ " not supported by Wikipedia source")
  else if ¬ wikiIsAvailable then
    .error "Wikipedia source is not available"
  else if (["history", "fun"] : List String).contains category then
    .ok (fetchOnThisDay env max_items)
  else if (["news", "events"] : List String).contains category then
    .ok (fetchCurrentEvents env max_items)
  else
    .ok (fetchOnThisDay env max_items)

/-! ## Reddit source (reddit_source.py) -/

/-- One Reddit submission as the code reads it (reddit_source.py lines
103-121). -/
structure Submission where
  title : String
  url : String
  permalink : String
  selftext : String
  is_self : Bool
  stickied : Bool
  score : Int
  num_comments : Int
  created_utc : Nat
  author : Option String
deriving DecidableEq, Repr

/-- External world seen by RedditSource: whether initialization of the
PRAW client succeeded, and the hot listing of each subreddit.  A listing
call can raise; `hot sub limit` models `subreddit.hot(limit=limit)` and
returns at most `limit` submissions on success. -/
structure RedditEnv where
  initialized : Bool
  hot : String → Nat → Except String (List Submission)

/-- RedditSource.SUBREDDIT_MAP (reddit_source.py lines 16-22). -/
def subredditMap : List (String × List String) :=
  [("tech", ["technology", "programming", "artificial"]),
   ("science", ["science", "askscience", "space"]),
   ("fun", ["todayilearned", "explainlikeimfive", "Damnthatsinteresting"]),
   ("news", ["worldnews", "news"]),
   ("startup", ["startups", "entrepreneur"])]

/-- RedditSource.categories (reddit_source.py line 28). -/
def redditCategories : List String := ["tech", "science", "fun", "news", "startup"]

/-- RedditSource.is_available (reddit_source.py lines 57-63). -/
def redditIsAvailable (env : RedditEnv) : Bool := env.initialized

/-- Building one NewsItem from a submission (reddit_source.py lines
108-121). -/
def submissionToItem (category sub : String) (s : Submission) : NewsItem :=
  mkNewsItem s.title
    (if s.is_self then some ("https://reddit.com" ++ s.permalink) else some s.url)
    (if s.is_self then some (s.selftext.take 200) else none)
    "reddit" category (some s.created_utc)
    (some [("subreddit", .s sub), ("score", .i s.score),
           ("num_comments", .i s.num_comments),
           ("author", .s (match s.author with
                          | some a => a
                          | none => "[deleted]"))])

/-- Inner submission loop of RedditSource.fetch (reddit_source.py lines
103-125): skip stickied posts, append, break once max_items is reached
(the length test runs after each append). -/
def redditScan (category sub : String) (max_items : Nat) :
    List Submission → List NewsItem → List NewsItem
  | [], acc => acc
  | s :: rest, acc =>
    if s.stickied then redditScan category sub max_items rest acc
    else
      let acc2 := acc ++ [submissionToItem category sub s]
      if max_items ≤ acc2.length then acc2
      else redditScan category sub max_items rest acc2

/-- Outer subreddit loop of RedditSource.fetch (reddit_source.py lines
98-132): a failing subreddit query is caught and skipped (`continue`
also skips the post-loop break test); after a successful query the loop
breaks once max_items is reached. -/
def redditSubLoop (env : RedditEnv) (category : String)
    (max_items items_per_sub : Nat) :
    List String → List NewsItem → List NewsItem
  | [], acc => acc
  | sub :: rest, acc =>
    match env.hot sub items_per_sub with
    | .error _ => redditSubLoop env category max_items items_per_sub rest acc
    | .ok subs =>
      let acc2 := redditScan category sub max_items subs acc
      if max_items ≤ acc2.length then acc2
      else redditSubLoop env category max_items items_per_sub rest acc2

/-- Dictionary lookup with default, `dict.get(key, default)`. -/
def lookupD {α : Type} (m : List (String × α)) (key : String) (dflt : α) : α :=
  match m.find? (fun p => p.fst == key) with
  | some p => p.snd
  | none => dflt

/-- RedditSource.fetch (reddit_source.py lines 65-139): category and
availability guards raise; an empty subreddit mapping returns an empty
list; otherwise max_items is distributed as
`max(1, max_items // len(subreddits))` per subreddit and the result is
truncated to max_items. -/
def redditFetch (env : RedditEnv) (category : String) (max_items : Nat) :
    Except String (List NewsItem) :=
  if ¬ (redditCategories.contains category) then
    .error ("Category " ++ category ++ " not supported by Reddit source")
  else if ¬ (redditIsAvailable env) then
    .error "Reddit source is not available"
  else
    let subreddits := lookupD subredditMap category []
    match subreddits with
    | [] => .ok []
    | _ =>
      let items_per_sub := Nat.max 1 (max_items / subreddits.length)
      .ok ((redditSubLoop env category max_items items_per_sub subreddits []).take max_items)

/-! ## HackerNews scraper tool (tools/hacker_news.py) and source
(hackernews_source.py) -/

/-- One front-page row as the scraper sees it: a row whose parsing
raises (caught per item and skipped), a row without a usable title link
(skipped by `continue`), or a parsed story with title, href and subtext
data (tools/hacker_news.py lines 49-103). -/
inductive HNRow where
  | malformed
  | noTitle
  | story (title href author : String) (points comments : Nat)
deriving DecidableEq, Repr

/-- External world seen by the HackerNews scraper: the outcome of the
front-page request and parse. -/
structure HNEnv where
  page : Except String (List HNRow)

/-- A scraped item dict (tools/hacker_news.py lines 105-114). -/
structure HNRawItem where
  title : String
  url : String
  snippet : String
  points : Nat
  comments : Nat
  author : String
  rank : Nat
deriving DecidableEq, Repr

/-- The dict returned by scrape_hacker_news: items plus an optional
error string (tools/hacker_news.py lines 123-150). -/
structure ScrapeResult where
  items : List HNRawItem
  error : Option String
deriving DecidableEq, Repr

/-- Relative URL rewriting (tools/hacker_news.py lines 64-65). -/
def hnRewriteUrl (href : String) : String :=
  if href.startsWith "item?id=" then "https://news.ycombinator.com/" ++ href
  else href

/-- Snippet synthesis (tools/hacker_news.py lines 98-103). -/
def hnSnippet (author : String) (points comments : Nat) : String :=
  let base := if author ≠ "" then "Posted by " ++ author
              else "Hacker News discussion"
  let base := if 0 < points then base ++ " - " ++ toString points ++ " points"
              else base
  if 0 < comments then base ++ " - " ++ toString comments ++ " comments"
  else base

/-- Per-row loop of scrape_hacker_news (tools/hacker_news.py lines
49-121): the index `i` counts every enumerated row, a malformed row is
skipped by the per-item exception handler, a row without a title link is
skipped by `continue`, and a parsed story becomes an item with
rank `i + 1`. -/
def hnScanRows : List HNRow → Nat → List HNRawItem
  | [], _ => []
  | .malformed :: rest, i => hnScanRows rest (i + 1)
  | .noTitle :: rest, i => hnScanRows rest (i + 1)
  | .story title href author points comments :: rest, i =>
    { title := title, url := hnRewriteUrl href,
      snippet := hnSnippet author points comments,
      points := points, comments := comments, author := author,
      rank := i + 1 } :: hnScanRows rest (i + 1)

/-- scrape_hacker_news (tools/hacker_news.py lines 14-150): a failing
front-page retrieval is caught and converted into an empty-items dict
with an error field; otherwise the first max_items rows are parsed. -/
def scrapeHackerNews (env : HNEnv) (max_items : Nat) : ScrapeResult :=
  match env.page with
  | .error e => { items := [], error := some ("Network error: " ++ e) }
  | .ok rows => { items := hnScanRows (rows.take max_items) 0, error := none }

/-- HackerNewsSource.categories (hackernews_source.py line 17). -/
def hnCategories : List String := ["tech", "startup", "ai"]

/-- Conversion of one scraped item dict to a NewsItem
(hackernews_source.py lines 64-78). -/
def hnRawToItem (category : String) (item : HNRawItem) : NewsItem :=
  mkNewsItem item.title (some item.url) none "hackernews" category none
    (some [("points", .i item.points), ("comments", .i item.comments),
           ("rank", .i item.rank)])

/-- HackerNewsSource.fetch (hackernews_source.py lines 28-85): category
guard raises; the source is always available; the scraper result is
checked for emptiness (an error dict from the scraper has empty items
and therefore yields an ordinary empty return), else converted.  The
scraper never raises, so the outer exception handler never fires. -/
def hackerNewsFetch (env : HNEnv) (category : String) (max_items : Nat) :
    Except String (List NewsItem) :=
  if ¬ (hnCategories.contains category) then
    .error ("Category " ++ category ++ " not supported by HackerNews source")
  else
    let result := scrapeHackerNews env max_items
    match result.items with
    | [] => .ok []
    | _ => .ok ((result.items.take max_items).map (hnRawToItem category))

/-! ## Tavily source (tavily_source.py) and search_news tool
(tools/news_tools.py) -/

/-- One hit of a Tavily result list: either a dict (with optional
title, url, content, snippet keys and a score) or a non-dict entry that
the code ignores (tavily_source.py lines 134-149). -/
inductive TavilyHit where
  | dict (title url content snippet : Option String) (score : Int)
  | nondict
deriving DecidableEq, Repr

/-- The heterogeneous shapes a Tavily invocation can return: a single
string blob, a list of hits, or some other shape that both parse
branches ignore (tavily_source.py lines 116-149). -/
inductive TavilyResults where
  | str (s : String)
  | list (rs : List TavilyHit)
  | other
deriving DecidableEq, Repr

/-- External world seen by TavilySource: whether the langchain-tavily
module import succeeds, whether TAVILY_API_KEY is set, whether client
construction succeeds, the outcome of each query, and the clock. -/
structure TavilyEnv where
  importOk : Bool
  hasApiKey : Bool
  clientOk : Bool
  invoke : String → Except String TavilyResults
  now : Nat

/-- TavilySource._initialize (tavily_source.py lines 35-59): a failed
module import, a missing API key or a failed client construction each
leave the source uninitialized; every exception is caught. -/
def tavilyInitialized (env : TavilyEnv) : Bool :=
  env.importOk && env.hasApiKey && env.clientOk

/-- TavilySource.is_available (tavily_source.py lines 61-67). -/
def tavilyIsAvailable (env : TavilyEnv) : Bool := tavilyInitialized env

/-- TavilySource.CATEGORY_QUERIES (tavily_source.py lines 17-23). -/
def categoryQueries : List (String × List String) :=
  [("tech", ["latest technology news", "AI breakthroughs", "new tech products"]),
   ("science", ["recent scientific discoveries", "space exploration news", "medical breakthroughs"]),
   ("news", ["breaking news today", "world news", "current events"]),
   ("fun", ["interesting facts", "unusual discoveries", "amazing stories"]),
   ("ai", ["artificial intelligence news", "machine learning advances", "AI research"])]

/-- TavilySource.categories (tavily_source.py line 29). -/
def tavilyCategories : List String := ["tech", "science", "news", "fun", "ai"]

/-- NewsItem built from the single-string result shape (tavily_source.py
lines 118-130 and 186-196). -/
def tavilyStrItem (query cat topic : String) (blob : String) (now : Nat) : NewsItem :=
  mkNewsItem query none (some (blob.take 300)) "tavily" cat (some now)
    (some [("query", .s query), ("topic", .s topic)])

/-- NewsItem built from one dict-shaped hit (tavily_source.py lines
135-149 and 200-214): `result.get(content, result.get(snippet, ))`
falls back from content to snippet to the empty string. -/
def tavilyHitItem (query cat topic : String)
    (title url content snippet : Option String) (score : Int) : NewsItem :=
  mkNewsItem (title.getD query) url
    (some ((match content with
            | some c => c
            | none => snippet.getD "").take 300))
    "tavily" cat none
    (some [("query", .s query), ("topic", .s topic), ("score", .i score)])

/-- Items produced for one query result: a string blob yields one item,
a hit list yields an item per dict hit among the first `cap` hits, any
other shape yields nothing (tavily_source.py lines 116-149). -/
def tavilyParse (r : TavilyResults) (query cat topic : String)
    (cap : Nat) (now : Nat) : List NewsItem :=
  match r with
  | .str s => [tavilyStrItem query cat topic s now]
  | .list rs =>
    (rs.take cap).filterMap (fun h =>
      match h with
      | .dict title url content snippet score =>
        some (tavilyHitItem query cat topic title url content snippet score)
      | .nondict => none)
  | .other => []

/-- Per-query loop of TavilySource.fetch (tavily_source.py lines
108-156): a failing query is caught and skipped (`continue` also skips
the post-loop break test); after a successful query the loop breaks once
max_items is reached. -/
def tavilyQueryLoop (env : TavilyEnv) (cat topic : String)
    (max_items items_per_query : Nat) :
    List String → List NewsItem → List NewsItem
  | [], acc => acc
  | q :: rest, acc =>
    match env.invoke q with
    | .error _ => tavilyQueryLoop env cat topic max_items items_per_query rest acc
    | .ok r =>
      let acc2 := acc ++ tavilyParse r q cat topic items_per_query env.now
      if max_items ≤ acc2.length then acc2
      else tavilyQueryLoop env cat topic max_items items_per_query rest acc2

/-- TavilySource.fetch (tavily_source.py lines 69-163): category and
availability guards raise; max_items is distributed as
`max(1, max_items // len(queries))` per query template and the result is
truncated to max_items. -/
def tavilyFetch (env : TavilyEnv) (category : String) (max_items : Nat)
    (topic : String) : Except String (List NewsItem) :=
  if ¬ (tavilyCategories.contains category) then
    .error ("Category " ++ category ++ " not supported by Tavily source")
  else if ¬ (tavilyIsAvailable env) then
    .error "Tavily source is not available"
  else
    let queries := lookupD categoryQueries category [category]
    let items_per_query := Nat.max 1 (max_items / queries.length)
    .ok ((tavilyQueryLoop env category topic max_items items_per_query queries []).take max_items)

/-- TavilySource.search_custom (tavily_source.py lines 165-221): raises
when the source is unavailable; otherwise invokes the query once,
normalizes the result under category `custom` with the list shape
truncated to max_results, and converts any exception during the search
into an empty list. -/
def searchCustom (env : TavilyEnv) (query : String) (max_results : Nat)
    (topic : String) : Except String (List NewsItem) :=
  if ¬ (tavilyIsAvailable env) then
    .error "Tavily source is not available"
  else
    match env.invoke query with
    | .error _ => .ok []
    | .ok r => .ok (tavilyParse r query "custom" topic max_results env.now)

/-- The per-item dict built by the search_news tool (news_tools.py lines
191-199). -/
structure ItemDict where
  title : String
  url : Option String
  description : Option String
  source : String
  metadata : Option Metadata
deriving DecidableEq, Repr

/-- NewsItem to wire dict (news_tools.py lines 191-199). -/
def toItemDict (it : NewsItem) : ItemDict :=
  { title := it.title, url := it.url, description := it.description,
    source := it.source_name, metadata := it.metadata }

/-- The dict returned by the search_news tool (news_tools.py lines
203-216). -/
structure SearchNewsResult where
  items : List ItemDict
  query : String
  count : Nat
  error : Option String
deriving DecidableEq, Repr

/-- Body of the search_news tool before its outer exception handler
(news_tools.py lines 172-207): construct a TavilySource (construction
never raises), return an error dict when it is unavailable, otherwise
run search_custom and convert the items. -/
def searchNewsBody (env : TavilyEnv) (query : String) (max_items : Nat) :
    Except String SearchNewsResult :=
  if ¬ (tavilyIsAvailable env) then
    .ok { items := [], query := query, count := 0,
          error := some "Tavily search is not available (missing API key)" }
  else
    match searchCustom env query max_items "general" with
    | .error e => .error e
    | .ok news_items =>
      let items_list := news_items.map toItemDict
      .ok { items := items_list, query := query, count := items_list.length,
            error := none }

/-- search_news (news_tools.py lines 148-216): the outer exception
handler converts any raised exception into an error dict, so the tool
never lets an exception escape. -/
def searchNews (env : TavilyEnv) (query : String) (max_items : Nat) :
    SearchNewsResult :=
  match searchNewsBody env query max_items with
  | .ok r => r
  | .error e => { items := [], query := query, count := 0, error := some e }

/-! ## News source manager (manager.py) -/

/-- A registered source as the manager sees it: its name, its declared
categories, its availability as observed at load time and at call time
(is_available may be re-evaluated on every call and can change between
the two), and its fetch behaviour. -/
structure MSource where
  name : String
  cats : List String
  availLoad : Bool
  availCall : Bool
  fetchFn : String → Nat → Except String (List NewsItem)

/-- The manager state: the registered sources in registration order
(Python dict insertion order) and the configured priority list
(manager.py lines 22-23). -/
structure Manager where
  sources : List MSource
  priority : List String

/-- Lookup in the name-to-source dict, `self.sources[name]` guarded by
`name in self.sources`. -/
def Manager.find (m : Manager) (name : String) : Option MSource :=
  m.sources.find? (fun s => s.name == name)

/-- NewsSourceManager.get_sources_for_category (manager.py lines
135-147): the names of sources that are available (at call time) and
support the category, in registration order. -/
def Manager.getSourcesForCategory (m : Manager) (category : String) : List String :=
  (m.sources.filter (fun s => s.availCall && s.cats.contains category)).map
    (fun s => s.name)

/-- The candidate ordering computed at manager.py lines 200-202:
priority names restricted to the available candidates, then the
remaining candidates. -/
def Manager.orderedSources (m : Manager) (category : String) : List String :=
  let available_sources := m.getSourcesForCategory category
  let priority_sources := m.priority.filter (fun s => available_sources.contains s)
  let remaining_sources := available_sources.filter
    (fun s => !(priority_sources.contains s))
  priority_sources ++ remaining_sources

/-- Diagnostic attached to a fetch_by_category result, mirroring which
log/return branch of manager.py lines 169-220 produced it. -/
inductive Diag where
  | pinnedOk (name : String)
  | sourceNotFound (name : String)
  | sourceUnavailable (name : String)
  | categoryUnsupported (name : String)
  | pinnedFetchError (name : String) (e : String)
  | noSources
  | autoOk (name : String)
  | allFailed
deriving DecidableEq, Repr

/-- The observable outcome of fetch_by_category: the returned item list
and the diagnostic branch. -/
structure FetchResult where
  items : List NewsItem
  diag : Diag
deriving Repr

/-- The candidate loop of the auto-selection path (manager.py lines
204-220): a missing name or a raising fetch is caught and skipped, an
empty result moves on, the first non-empty result returns immediately
with its provider attributed, and exhaustion returns an empty result
with the all-failed diagnostic. -/
def tryOrdered (m : Manager) (category : String) (max_items : Nat) :
    List String → FetchResult
  | [] => { items := [], diag := .allFailed }
  | name :: rest =>
    match m.find name with
    | none => tryOrdered m category max_items rest
    | some s =>
      match s.fetchFn category max_items with
      | .error _ => tryOrdered m category max_items rest
      | .ok items =>
        match items with
        | [] => tryOrdered m category max_items rest
        | _ => { items := items, diag := .autoOk name }

/-- The auto-selection path of fetch_by_category (manager.py lines
192-220). -/
def Manager.autoPath (m : Manager) (category : String) (max_items : Nat) :
    FetchResult :=
  let available_sources := m.getSourcesForCategory category
  match available_sources with
  | [] => { items := [], diag := .noSources }
  | _ => tryOrdered m category max_items (m.orderedSources category)

/-- NewsSourceManager.fetch_by_category (manager.py lines 149-220).  The
pin test is Python truthiness (`if source_name:`), so an empty-string
pin takes the auto-selection path.  The codomain is `Except` so that a
propagated exception is representable; every branch of the source
returns normally. -/
def Manager.fetchByCategory (m : Manager) (category : String) (max_items : Nat)
    (source_name : Option String) : Except String FetchResult :=
  match source_name with
  | some name =>
    if name = "" then .ok (m.autoPath category max_items)
    else
      match m.find name with
      | none => .ok { items := [], diag := .sourceNotFound name }
      | some s =>
        if ¬ s.availCall then .ok { items := [], diag := .sourceUnavailable name }
        else if ¬ (s.cats.contains category) then
          .ok { items := [], diag := .categoryUnsupported name }
        else
          match s.fetchFn category max_items with
          | .ok items => .ok { items := items, diag := .pinnedOk name }
          | .error e => .ok { items := [], diag := .pinnedFetchError name e }
  | none => .ok (m.autoPath category max_items)

/-! ### Source loading (manager.py lines 61-116) -/

/-- The outcome of attempting one source variant during _load_sources:
either its construction raised, or it was built and its is_available()
answer at load time is recorded in the `availLoad` field of the built
source. -/
inductive LoadOutcome where
  | ctorRaises (e : String)
  | built (s : MSource)

/-- NewsSourceManager._load_sources (manager.py lines 61-116): each
variant is attempted independently; a raising constructor is caught,
logged and omitted; a built source is registered only when its
is_available() returned True at load time. -/
def loadSources : List LoadOutcome → List MSource
  | [] => []
  | .ctorRaises _ :: rest => loadSources rest
  | .built s :: rest =>
    if s.availLoad then s :: loadSources rest else loadSources rest

/-- Whether the auto-selection loop skips a named candidate: the name is
missing from the dict, or its fetch raises, or its fetch returns an
empty list (manager.py lines 204-217). -/
def skipsTo (m : Manager) (category : String) (max_items : Nat)
    (name : String) : Bool :=
  match m.find name with
  | none => true
  | some s =>
    match s.fetchFn category max_items with
    | .error _ => true
    | .ok items => items.isEmpty

/-! ## Invariant predicates -/

/-- The per-item invariant claimed for provider output: metadata present
and source_name equal to the producing provider's identifier. -/
def providerItemInv (pname : String) (it : NewsItem) : Prop :=
  it.metadata.isSome = true ∧ it.source_name = pname

/-- Hypothesis on a manager's registered sources: non-empty names and
provider-correct items from every successful fetch. -/
def managerSourcesInv (m : Manager) : Prop :=
  ∀ s ∈ m.sources, ¬ (s.name = "") ∧
    ∀ (c : String) (n : Nat) (its : List NewsItem), s.fetchFn c n = .ok its →
      ∀ it ∈ its, providerItemInv s.name it

/-! ## Concrete test fixtures -/

/-- A concrete news item produced by the fixture source `srcB`. -/
def item1 : NewsItem := mkNewsItem "t" none none "beta" "tech" none none

/-- A fixture source whose fetch always raises. -/
def srcA : MSource :=
  { name := "alpha", cats := ["tech"], availLoad := true, availCall := true,
    fetchFn := fun _ _ => .error "boom" }

/-- A fixture source whose fetch returns one item. -/
def srcB : MSource :=
  { name := "beta", cats := ["tech"], availLoad := true, availCall := true,
    fetchFn := fun _ _ => .ok [item1] }

/-- A fixture manager with a raising first-priority source and a
succeeding second source. -/
def m1 : Manager := { sources := [srcA, srcB], priority := ["alpha", "beta"] }

/-- A Wikipedia environment in which both requests succeed (the
on-this-day feed is empty). -/
def envW0 : WikiEnv :=
  { otd := .ok [], current := .ok (), month := "10", day := "12", now := 7 }

/-- The Wikipedia source as registered in a manager, over `envW0`. -/
def wikiMSource : MSource :=
  { name := "wikipedia", cats := wikiCategories, availLoad := true, availCall := true,
    fetchFn := fun c n => wikipediaFetch envW0 c n }

/-- A manager holding only the Wikipedia source. -/
def mWiki : Manager := { sources := [wikiMSource], priority := ["wikipedia"] }

/-- A Reddit environment in which every subreddit query raises. -/
def envRfail : RedditEnv :=
  { initialized := true, hot := fun _ _ => .error "connection refused" }

/-- A HackerNews environment in which the front-page request raises. -/
def envHfail : HNEnv := { page := .error "timeout" }

/-- A HackerNews environment with two good rows around one malformed
row. -/
def envHmixed : HNEnv :=
  { page := .ok [.story "A" "https://a.com" "u" 10 2, .malformed,
                 .story "B" "item?id=5" "" 0 0] }

/-- A Tavily environment with no API key configured. -/
def envT0 : TavilyEnv :=
  { importOk := true, hasApiKey := false, clientOk := true,
    invoke := fun _ => .ok .other, now := 0 }

/-- A fixture source registered as available but unavailable at call
time. -/
def srcDrop : MSource :=
  { name := "delta", cats := ["tech"], availLoad := true, availCall := false,
    fetchFn := fun _ _ => .ok [] }

/-- Load outcomes producing a manager whose only source later flips to
unavailable. -/
def outs0 : List LoadOutcome := [.built srcDrop]

/-! ## Helper lemmas -/

theorem contains_filter_of_mem (l2 l : List String) (x : String) (hx : x ∈ l) :
    ((l2.filter (fun p => l.contains p)).contains x) = l2.contains x := by
  simp only [List.contains, List.elem_eq_mem, List.mem_filter]
  simp [hx]

theorem tryOrdered_skip (m : Manager) (c : String) (n : Nat) (name : String)
    (rest : List String) (h : skipsTo m c n name = true) :
    tryOrdered m c n (name :: rest) = tryOrdered m c n rest := by
  unfold skipsTo at h
  simp only [tryOrdered]
  cases hf : m.find name with
  | none => simp
  | some s =>
    rw [hf] at h
    dsimp only at h
    simp only
    cases hfe : s.fetchFn c n with
    | error e => simp
    | ok items =>
      rw [hfe] at h
      cases items with
      | nil => simp
      | cons a l => simp [List.isEmpty] at h

theorem tryOrdered_skipAll (m : Manager) (c : String) (n : Nat)
    (l : List String) (h : ∀ x ∈ l, skipsTo m c n x = true) :
    tryOrdered m c n l = { items := [], diag := .allFailed } := by
  induction l with
  | nil => rfl
  | cons a t ih =>
    rw [tryOrdered_skip m c n a t (h a (List.mem_cons_self a t))]
    exact ih (fun x hx => h x (List.mem_cons_of_mem a hx))

theorem tryOrdered_skipPre (m : Manager) (c : String) (n : Nat)
    (pre rest : List String) (h : ∀ x ∈ pre, skipsTo m c n x = true) :
    tryOrdered m c n (pre ++ rest) = tryOrdered m c n rest := by
  induction pre with
  | nil => rfl
  | cons a t ih =>
    rw [List.cons_append, tryOrdered_skip m c n a (t ++ rest) (h a (List.mem_cons_self a t))]
    exact ih (fun x hx => h x (List.mem_cons_of_mem a hx))

theorem tryOrdered_hit (m : Manager) (c : String) (n : Nat) (name : String)
    (rest : List String) (s : MSource) (items : List NewsItem)
    (hf : m.find name = some s) (hfe : s.fetchFn c n = .ok items)
    (hne : items ≠ []) :
    tryOrdered m c n (name :: rest) = { items := items, diag := .autoOk name } := by
  simp only [tryOrdered]
  rw [hf]
  simp only
  rw [hfe]
  cases items with
  | nil => exact absurd rfl hne
  | cons a l => simp

theorem orderedSources_nil (m : Manager) (c : String)
    (h : m.getSourcesForCategory c = []) : m.orderedSources c = [] := by
  unfold Manager.orderedSources
  rw [h]
  simp

theorem redditSubLoop_skip (env : RedditEnv) (c : String) (n per : Nat)
    (sub : String) (rest : List String) (acc : List NewsItem) (e : String)
    (h : env.hot sub per = .error e) :
    redditSubLoop env c n per (sub :: rest) acc = redditSubLoop env c n per rest acc := by
  simp only [redditSubLoop]
  rw [h]

theorem redditSubLoop_allFail (env : RedditEnv) (c : String) (n per : Nat)
    (l : List String) (acc : List NewsItem)
    (h : ∀ sub ∈ l, isOkE (env.hot sub per) = false) :
    redditSubLoop env c n per l acc = acc := by
  induction l with
  | nil => rfl
  | cons a t ih =>
    have ha := h a (List.mem_cons_self a t)
    cases he : env.hot a per with
    | ok subs => rw [he] at ha; simp [isOkE] at ha
    | error e =>
      rw [redditSubLoop_skip env c n per a t acc e he]
      exact ih (fun x hx => h x (List.mem_cons_of_mem a hx))

theorem loadSources_availLoad (outs : List LoadOutcome) (s : MSource)
    (hs : s ∈ loadSources outs) : s.availLoad = true := by
  induction outs with
  | nil => simp [loadSources] at hs
  | cons o t ih =>
    cases o with
    | ctorRaises e => exact ih (by simpa [loadSources] using hs)
    | built s2 =>
      by_cases hav : s2.availLoad
      · rw [loadSources, if_pos hav] at hs
        rcases List.mem_cons.mp hs with h | h
        · rw [h]; exact hav
        · exact ih h
      · rw [loadSources, if_neg hav] at hs
        exact ih hs

theorem tryOrdered_diag (m : Manager) (c : String) (n : Nat) (l : List String) :
    (tryOrdered m c n l).diag = .allFailed ∨
    ∃ nm, (tryOrdered m c n l).diag = .autoOk nm := by
  induction l with
  | nil => exact Or.inl rfl
  | cons a t ih =>
    simp only [tryOrdered]
    cases m.find a with
    | none => dsimp only; exact ih
    | some s =>
      dsimp only
      cases s.fetchFn c n with
      | error e => dsimp only; exact ih
      | ok items =>
        dsimp only
        cases items with
        | nil => dsimp only; exact ih
        | cons x xs => dsimp only; exact Or.inr ⟨a, rfl⟩

theorem autoPath_diag (m : Manager) (c : String) (n : Nat) (name : String) :
    (m.autoPath c n).diag ≠ .sourceUnavailable name := by
  unfold Manager.autoPath
  cases h : m.getSourcesForCategory c with
  | nil => simp
  | cons a t =>
    simp only
    rcases tryOrdered_diag m c n (m.orderedSources c) with hd | ⟨nm, hd⟩ <;>
      rw [hd] <;> simp

theorem tryOrdered_provenance (m : Manager) (c : String) (n : Nat) (l : List String) :
    (tryOrdered m c n l).items = [] ∨
    ∃ name s, m.find name = some s ∧
      s.fetchFn c n = .ok (tryOrdered m c n l).items := by
  induction l with
  | nil => exact Or.inl rfl
  | cons a t ih =>
    simp only [tryOrdered]
    cases hf : m.find a with
    | none => dsimp only; exact ih
    | some s =>
      dsimp only
      cases hfe : s.fetchFn c n with
      | error e => dsimp only; exact ih
      | ok items =>
        dsimp only
        cases items with
        | nil => dsimp only; exact ih
        | cons x xs => exact Or.inr ⟨a, s, hf, hfe⟩

theorem mkNewsItem_metadata (t : String) (u d : Option String) (sn cat : String)
    (p : Option Nat) (md : Option Metadata) :
    (mkNewsItem t u d sn cat p md).metadata.isSome = true := by
  cases md <;> rfl

theorem mkNewsItem_source (t : String) (u d : Option String) (sn cat : String)
    (p : Option Nat) (md : Option Metadata) :
    (mkNewsItem t u d sn cat p md).source_name = sn := by
  cases md <;> rfl

theorem fetchOnThisDay_inv (env : WikiEnv) (n : Nat) :
    ∀ it ∈ fetchOnThisDay env n, providerItemInv "wikipedia" it := by
  intro it hit
  unfold fetchOnThisDay at hit
  cases henv : env.otd with
  | error e => rw [henv] at hit; simp at hit
  | ok events =>
    rw [henv] at hit
    dsimp only at hit
    rcases List.mem_map.mp hit with ⟨ev, _, rfl⟩
    unfold otdEventToItem
    exact ⟨mkNewsItem_metadata _ _ _ _ _ _ _, mkNewsItem_source _ _ _ _ _ _ _⟩

theorem fetchCurrentEvents_inv (env : WikiEnv) (n : Nat) :
    ∀ it ∈ fetchCurrentEvents env n, providerItemInv "wikipedia" it := by
  intro it hit
  unfold fetchCurrentEvents at hit
  cases henv : env.current with
  | error e => rw [henv] at hit; simp at hit
  | ok u =>
    rw [henv] at hit
    rcases List.mem_singleton.mp hit with rfl
    unfold currentEventsItem
    exact ⟨mkNewsItem_metadata _ _ _ _ _ _ _, mkNewsItem_source _ _ _ _ _ _ _⟩

theorem wikipediaFetch_inv (env : WikiEnv) (c : String) (n : Nat) :
    ∀ it ∈ exceptItems (wikipediaFetch env c n), providerItemInv "wikipedia" it := by
  intro it hit
  unfold wikipediaFetch at hit
  split at hit
  · simp [exceptItems] at hit
  · split at hit
    · simp [exceptItems] at hit
    · split at hit
      · exact fetchOnThisDay_inv env n it (by simpa [exceptItems] using hit)
      · split at hit
        · exact fetchCurrentEvents_inv env n it (by simpa [exceptItems] using hit)
        · exact fetchOnThisDay_inv env n it (by simpa [exceptItems] using hit)

theorem submissionToItem_inv (c sub : String) (s : Submission) :
    providerItemInv "reddit" (submissionToItem c sub s) := by
  unfold submissionToItem
  exact ⟨mkNewsItem_metadata _ _ _ _ _ _ _, mkNewsItem_source _ _ _ _ _ _ _⟩

theorem redditScan_inv (c sub : String) (n : Nat) (subs : List Submission)
    (acc : List NewsItem) (hacc : ∀ it ∈ acc, providerItemInv "reddit" it) :
    ∀ it ∈ redditScan c sub n subs acc, providerItemInv "reddit" it := by
  induction subs generalizing acc with
  | nil => simpa only [redditScan] using hacc
  | cons s rest ih =>
    intro it hit
    simp only [redditScan] at hit
    by_cases hst : s.stickied = true
    · rw [if_pos hst] at hit
      exact ih acc hacc it hit
    · rw [if_neg hst] at hit
      have hacc2 : ∀ x ∈ acc ++ [submissionToItem c sub s], providerItemInv "reddit" x := by
        intro x hx
        rcases List.mem_append.mp hx with h | h
        · exact hacc x h
        · rw [List.mem_singleton.mp h]
          exact submissionToItem_inv c sub s
      by_cases hlen : n ≤ (acc ++ [submissionToItem c sub s]).length
      · rw [if_pos hlen] at hit
        exact hacc2 it hit
      · rw [if_neg hlen] at hit
        exact ih _ hacc2 it hit

theorem redditSubLoop_inv (env : RedditEnv) (c : String) (n per : Nat)
    (l : List String) (acc : List NewsItem)
    (hacc : ∀ it ∈ acc, providerItemInv "reddit" it) :
    ∀ it ∈ redditSubLoop env c n per l acc, providerItemInv "reddit" it := by
  induction l generalizing acc with
  | nil => simpa only [redditSubLoop] using hacc
  | cons sub rest ih =>
    intro it hit
    simp only [redditSubLoop] at hit
    cases he : env.hot sub per with
    | error e =>
      rw [he] at hit
      exact ih acc hacc it hit
    | ok subs =>
      rw [he] at hit
      dsimp only at hit
      have hscan := redditScan_inv c sub n subs acc hacc
      by_cases hlen : n ≤ (redditScan c sub n subs acc).length
      · rw [if_pos hlen] at hit
        exact hscan it hit
      · rw [if_neg hlen] at hit
        exact ih _ hscan it hit

theorem redditFetch_inv (env : RedditEnv) (c : String) (n : Nat) :
    ∀ it ∈ exceptItems (redditFetch env c n), providerItemInv "reddit" it := by
  intro it hit
  unfold redditFetch at hit
  split at hit
  · simp [exceptItems] at hit
  · split at hit
    · simp [exceptItems] at hit
    · dsimp only at hit
      rcases hsub : lookupD subredditMap c ([] : List String) with _ | ⟨a, t⟩
      · rw [hsub] at hit
        simp [exceptItems] at hit
      · rw [hsub] at hit
        refine redditSubLoop_inv env c n (Nat.max 1 (n / (a :: t).length)) (a :: t)
          [] (by simp) it ?_
        exact List.take_subset _ _ (by simpa [exceptItems] using hit)

theorem hnRawToItem_inv (c : String) (item : HNRawItem) :
    providerItemInv "hackernews" (hnRawToItem c item) := by
  unfold hnRawToItem
  exact ⟨mkNewsItem_metadata _ _ _ _ _ _ _, mkNewsItem_source _ _ _ _ _ _ _⟩

theorem hackerNewsFetch_inv (env : HNEnv) (c : String) (n : Nat) :
    ∀ it ∈ exceptItems (hackerNewsFetch env c n), providerItemInv "hackernews" it := by
  intro it hit
  unfold hackerNewsFetch at hit
  split at hit
  · simp [exceptItems] at hit
  · dsimp only at hit
    rcases hres : (scrapeHackerNews env n).items with _ | ⟨a, t⟩
    · rw [hres] at hit
      simp [exceptItems] at hit
    · rw [hres] at hit
      have hit2 : it ∈ ((a :: t).take n).map (hnRawToItem c) := by
        simpa [exceptItems] using hit
      rcases List.mem_map.mp hit2 with ⟨raw, _, rfl⟩
      exact hnRawToItem_inv c raw

theorem tavilyStrItem_inv (q cat topic blob : String) (now : Nat) :
    providerItemInv "tavily" (tavilyStrItem q cat topic blob now) := by
  unfold tavilyStrItem
  exact ⟨mkNewsItem_metadata _ _ _ _ _ _ _, mkNewsItem_source _ _ _ _ _ _ _⟩

theorem tavilyHitItem_inv (q cat topic : String)
    (title url content snippet : Option String) (score : Int) :
    providerItemInv "tavily" (tavilyHitItem q cat topic title url content snippet score) := by
  unfold tavilyHitItem
  exact ⟨mkNewsItem_metadata _ _ _ _ _ _ _, mkNewsItem_source _ _ _ _ _ _ _⟩

theorem tavilyParse_inv (r : TavilyResults) (q cat topic : String) (cap now : Nat) :
    ∀ it ∈ tavilyParse r q cat topic cap now, providerItemInv "tavily" it := by
  intro it hit
  cases r with
  | str s =>
    rcases List.mem_singleton.mp hit with rfl
    exact tavilyStrItem_inv q cat topic s now
  | list rs =>
    unfold tavilyParse at hit
    rcases List.mem_filterMap.mp hit with ⟨h, _, heq⟩
    cases h with
    | dict title url content snippet score =>
      rw [Option.some.inj heq.symm]
      exact tavilyHitItem_inv q cat topic title url content snippet score
    | nondict => exact Option.noConfusion heq
  | other => simp [tavilyParse] at hit

theorem tavilyQueryLoop_inv (env : TavilyEnv) (cat topic : String)
    (n per : Nat) (l : List String) (acc : List NewsItem)
    (hacc : ∀ it ∈ acc, providerItemInv "tavily" it) :
    ∀ it ∈ tavilyQueryLoop env cat topic n per l acc, providerItemInv "tavily" it := by
  induction l generalizing acc with
  | nil => simpa only [tavilyQueryLoop] using hacc
  | cons q rest ih =>
    intro it hit
    simp only [tavilyQueryLoop] at hit
    cases he : env.invoke q with
    | error e =>
      rw [he] at hit
      exact ih acc hacc it hit
    | ok r =>
      rw [he] at hit
      dsimp only at hit
      have hacc2 : ∀ x ∈ acc ++ tavilyParse r q cat topic per env.now,
          providerItemInv "tavily" x := by
        intro x hx
        rcases List.mem_append.mp hx with h | h
        · exact hacc x h
        · exact tavilyParse_inv r q cat topic per env.now x h
      by_cases hlen : n ≤ (acc ++ tavilyParse r q cat topic per env.now).length
      · rw [if_pos hlen] at hit
        exact hacc2 it hit
      · rw [if_neg hlen] at hit
        exact ih _ hacc2 it hit

theorem tavilyFetch_inv (env : TavilyEnv) (c : String) (n : Nat) (topic : String) :
    ∀ it ∈ exceptItems (tavilyFetch env c n topic), providerItemInv "tavily" it := by
  intro it hit
  unfold tavilyFetch at hit
  split at hit
  · simp [exceptItems] at hit
  · split at hit
    · simp [exceptItems] at hit
    · dsimp only at hit
      refine tavilyQueryLoop_inv env c topic n
        (Nat.max 1 (n / (lookupD categoryQueries c [c]).length))
        (lookupD categoryQueries c [c]) [] (by simp) it ?_
      exact List.take_subset _ _ (by simpa [exceptItems] using hit)

theorem searchCustom_inv (env : TavilyEnv) (q : String) (n : Nat) (topic : String) :
    ∀ it ∈ exceptItems (searchCustom env q n topic), providerItemInv "tavily" it := by
  intro it hit
  unfold searchCustom at hit
  split at hit
  · simp [exceptItems] at hit
  · cases he : env.invoke q with
    | error e =>
      rw [he] at hit
      simp [exceptItems] at hit
    | ok r =>
      rw [he] at hit
      exact tavilyParse_inv r q "custom" topic n env.now it
        (by simpa [exceptItems] using hit)

theorem autoPath_inv (m : Manager) (hm : managerSourcesInv m)
    (c : String) (n : Nat) :
    ∀ it ∈ (m.autoPath c n).items,
      it.metadata.isSome = true ∧ ¬ (it.source_name = "") := by
  intro it hit
  unfold Manager.autoPath at hit
  cases h : m.getSourcesForCategory c with
  | nil => rw [h] at hit; simp at hit
  | cons a t =>
    rw [h] at hit
    dsimp only at hit
    rcases tryOrdered_provenance m c n (m.orderedSources c) with hnil | ⟨name, s, hf, hfe⟩
    · rw [hnil] at hit; simp at hit
    · have hsmem : s ∈ m.sources := List.mem_of_find?_eq_some hf
      rcases hm s hsmem with ⟨hname, hinv⟩
      rcases hinv c n _ hfe it hit with ⟨hmd, hsn⟩
      exact ⟨hmd, by rw [hsn]; exact hname⟩

theorem manager_items_inv (m : Manager) (hm : managerSourcesInv m)
    (c : String) (n : Nat) (pin : Option String) (r : FetchResult)
    (hr : m.fetchByCategory c n pin = .ok r) :
    ∀ it ∈ r.items, it.metadata.isSome = true ∧ ¬ (it.source_name = "") := by
  intro it hit
  cases pin with
  | none =>
    unfold Manager.fetchByCategory at hr
    dsimp only at hr
    rw [← Except.ok.inj hr] at hit
    exact autoPath_inv m hm c n it hit
  | some name =>
    unfold Manager.fetchByCategory at hr
    dsimp only at hr
    by_cases hname : name = ""
    · rw [if_pos hname] at hr
      rw [← Except.ok.inj hr] at hit
      exact autoPath_inv m hm c n it hit
    · rw [if_neg hname] at hr
      cases hf : m.find name with
      | none =>
        rw [hf] at hr
        dsimp only at hr
        rw [← Except.ok.inj hr] at hit
        simp at hit
      | some s =>
        rw [hf] at hr
        dsimp only at hr
        by_cases hav : s.availCall = true
        · rw [if_neg (by simp [hav])] at hr
          by_cases hcat : s.cats.contains c = true
          · rw [if_neg (by simpa using hcat)] at hr
            cases hfe : s.fetchFn c n with
            | ok items =>
              rw [hfe] at hr
              dsimp only at hr
              rw [← Except.ok.inj hr] at hit
              dsimp only at hit
              have hsmem : s ∈ m.sources := List.mem_of_find?_eq_some hf
              rcases hm s hsmem with ⟨hnm, hinv⟩
              rcases hinv c n items hfe it hit with ⟨hmd, hsn⟩
              exact ⟨hmd, by rw [hsn]; exact hnm⟩
            | error e =>
              rw [hfe] at hr
              dsimp only at hr
              rw [← Except.ok.inj hr] at hit
              simp at hit
          · rw [if_pos (by simpa using hcat)] at hr
            rw [← Except.ok.inj hr] at hit
            simp at hit
        · rw [if_pos (by simp [hav])] at hr
          rw [← Except.ok.inj hr] at hit
          simp at hit

/-! ## Claim theorems -/

/-- C1: in the auto-selection path of fetch_by_category the call always
returns normally (no provider exception propagates); with no candidates
it returns an empty result with the no-sources diagnostic; candidates
are tried in order, a raising or empty candidate is skipped, and the
first candidate returning a non-empty list is returned immediately with
that provider attributed; if every candidate is skipped the call returns
an empty result with the all-failed diagnostic. -/
theorem C1_auto_selection_contract :
    (∀ (m : Manager) (c : String) (n : Nat),
       isOkE (m.fetchByCategory c n none) = true)
    ∧ (∀ (m : Manager) (c : String) (n : Nat),
       m.getSourcesForCategory c = [] →
       m.fetchByCategory c n none = .ok { items := [], diag := .noSources })
    ∧ (∀ (m : Manager) (c : String) (n : Nat) (pre post : List String)
       (name : String) (s : MSource) (items : List NewsItem),
       m.orderedSources c = pre ++ name :: post →
       (∀ x ∈ pre, skipsTo m c n x = true) →
       m.find name = some s →
       s.fetchFn c n = .ok items → items ≠ [] →
       m.fetchByCategory c n none = .ok { items := items, diag := .autoOk name })
    ∧ (∀ (m : Manager) (c : String) (n : Nat),
       m.getSourcesForCategory c ≠ [] →
       (∀ x ∈ m.orderedSources c, skipsTo m c n x = true) →
       m.fetchByCategory c n none = .ok { items := [], diag := .allFailed }) := by
  refine ⟨?_, ?_, ?_, ?_⟩
  · intro m c n
    simp only [Manager.fetchByCategory, Manager.autoPath]
    cases h : m.getSourcesForCategory c <;> rfl
  · intro m c n h
    simp only [Manager.fetchByCategory, Manager.autoPath, h]
  · intro m c n pre post name s items hord hpre hf hfe hne
    have havail : m.getSourcesForCategory c ≠ [] := by
      intro hnil
      rw [orderedSources_nil m c hnil] at hord
      exact List.cons_ne_nil name post (List.append_eq_nil.mp hord.symm).2
    rcases h : m.getSourcesForCategory c with _ | ⟨a, t⟩
    · exact absurd h havail
    · simp only [Manager.fetchByCategory, Manager.autoPath, h]
      rw [hord, tryOrdered_skipPre m c n pre (name :: post) hpre,
          tryOrdered_hit m c n name post s items hf hfe hne]
  · intro m c n havail hall
    rcases h : m.getSourcesForCategory c with _ | ⟨a, t⟩
    · exact absurd h havail
    · simp only [Manager.fetchByCategory, Manager.autoPath, h]
      rw [tryOrdered_skipAll m c n (m.orderedSources c) hall]

/-- Witness for C1: on the fixture manager, the first-priority source
raises, the call still returns the second source's item with that source
attributed. -/
theorem C1_auto_selection_contract_witness :
    m1.fetchByCategory "tech" 5 none =
      .ok { items := [item1], diag := .autoOk "beta" } :=
  C1_auto_selection_contract.2.2.1 m1 "tech" 5 ["alpha"] [] "beta" srcB [item1]
    rfl (by decide) rfl rfl (by simp)

/-- C2 counterexample: a pinned unknown source name makes
fetch_by_category return an ordinary empty result (a normal return, not
a raised error), refuting the claim that pinned-path validation failures
are hard stops rather than ordinary empty results. -/
theorem C2_pinned_error_counterexample :
    m1.fetchByCategory "tech" 5 (some "nosuch") =
      .ok { items := [], diag := .sourceNotFound "nosuch" } ∧
    isOkE (m1.fetchByCategory "tech" 5 (some "nosuch")) = true :=
  ⟨rfl, rfl⟩

/-- C2 amended: with a pinned non-empty source name, an unknown name, an
unavailable source, and an unsupported category each produce an empty
result with the matching diagnostic (a logged error and a normal empty
return, not a raised exception), and none of them falls back to
auto-selection. -/
theorem C2_pinned_validation_empty (m : Manager) (c : String) (n : Nat)
    (name : String) (hname : ¬ (name = "")) :
    (m.find name = none →
      m.fetchByCategory c n (some name) = .ok { items := [], diag := .sourceNotFound name })
    ∧ (∀ s : MSource, m.find name = some s → s.availCall = false →
      m.fetchByCategory c n (some name) = .ok { items := [], diag := .sourceUnavailable name })
    ∧ (∀ s : MSource, m.find name = some s → s.availCall = true →
      s.cats.contains c = false →
      m.fetchByCategory c n (some name) = .ok { items := [], diag := .categoryUnsupported name }) := by
  refine ⟨?_, ?_, ?_⟩
  · intro h
    simp only [Manager.fetchByCategory, if_neg hname, h]
  · intro s h hav
    simp only [Manager.fetchByCategory, if_neg hname, h, hav]
    simp
  · intro s h hav hcat
    simp only [Manager.fetchByCategory, if_neg hname, h, hav, hcat]
    simp

/-- Witness for C2: pinning an unregistered name on the fixture manager
returns the empty source-not-found result. -/
theorem C2_pinned_validation_empty_witness :
    m1.fetchByCategory "history" 3 (some "gamma") =
      .ok { items := [], diag := .sourceNotFound "gamma" } :=
  (C2_pinned_validation_empty m1 "history" 3 "gamma" (by decide)).1 rfl

/-- C3 failing input: with max_items = 0 and a successful current-events
request, WikipediaSource.fetch for category news returns one item, and
fetch_by_category forwards it both pinned and unpinned, exceeding the
requested bound of 0. -/
theorem C3_maxitems_failing_input :
    wikipediaFetch envW0 "news" 0 = .ok [currentEventsItem envW0] ∧
    (exceptItems (wikipediaFetch envW0 "news" 0)).length = 1 ∧
    mWiki.fetchByCategory "news" 0 (some "wikipedia") =
      .ok { items := [currentEventsItem envW0], diag := .pinnedOk "wikipedia" } ∧
    mWiki.fetchByCategory "news" 0 none =
      .ok { items := [currentEventsItem envW0], diag := .autoOk "wikipedia" } :=
  ⟨rfl, rfl, rfl, rfl⟩

/-- C4: the auto-selection candidate ordering equals the priority
sequence restricted to the candidates (preserving its relative order)
followed by the candidates not mentioned in priority, in their
registration order. -/
theorem C4_priority_ordering (m : Manager) (c : String) :
    m.orderedSources c =
      m.priority.filter (fun s => (m.getSourcesForCategory c).contains s)
      ++ (m.getSourcesForCategory c).filter (fun s => !(m.priority.contains s)) := by
  unfold Manager.orderedSources
  dsimp only
  congr 1
  apply List.filter_congr
  intro x hx
  rw [contains_filter_of_mem _ _ _ hx]

/-- C5 counterexample: WikipediaSource.fetch with the unsupported
category tech raises a category error instead of falling back to the
on-this-day strategy. -/
theorem C5_fallback_counterexample :
    wikipediaFetch envW0 "tech" 5 =
      .error ("Category " ++ "tech" ++ " not supported by Wikipedia source") ∧
    isOkE (wikipediaFetch envW0 "tech" 5) = false :=
  ⟨rfl, rfl⟩

/-- C5 amended: any category that is neither history-style nor
current-events is rejected by the supports-category guard with a raised
category error, and every declared Wikipedia category is covered by one
of the two explicit strategy branches, so the unknown-category fallback
branch of fetch is unreachable. -/
theorem C5_unknown_category_error :
    (∀ (env : WikiEnv) (c : String) (n : Nat),
      (["history", "fun"] : List String).contains c = false →
      (["news", "events"] : List String).contains c = false →
      wikipediaFetch env c n =
        .error ("Category " ++ c ++ " not supported by Wikipedia source"))
    ∧ (∀ c : String, wikiCategories.contains c = true →
        (["history", "fun"] : List String).contains c = true ∨
        (["news", "events"] : List String).contains c = true) := by
  constructor
  · intro env c n h1 h2
    simp only [List.contains_cons, List.contains_nil, Bool.or_false,
      Bool.or_eq_false_iff, beq_eq_false_iff_ne, ne_eq] at h1 h2
    unfold wikipediaFetch
    rw [if_pos (show ¬ (wikiCategories.contains c = true) by
      simp [wikiCategories, h1.1, h1.2, h2.1, h2.2])]
  · intro c h
    simp only [wikiCategories, List.contains_cons, List.contains_nil, Bool.or_false,
      Bool.or_eq_true, beq_iff_eq] at h
    rcases h with h | h | h | h <;> subst h <;> simp

/-- Witness for C5: the category sports is neither history-style nor
current-events and fetch raises the category error on it. -/
theorem C5_unknown_category_error_witness :
    (["history", "fun"] : List String).contains "sports" = false ∧
    wikipediaFetch envW0 "sports" 2 =
      .error ("Category " ++ "sports" ++ " not supported by Wikipedia source") :=
  ⟨by decide, C5_unknown_category_error.1 envW0 "sports" 2 (by decide) (by decide)⟩

/-- C6 counterexample: with every tech subreddit query raising,
RedditSource.fetch returns an ordinary empty list instead of raising a
fetch failure, refuting the claimed raise-when-all-fail behaviour. -/
theorem C6_allfail_counterexample :
    envRfail.hot "technology" 1 = .error "connection refused" ∧
    envRfail.hot "programming" 1 = .error "connection refused" ∧
    envRfail.hot "artificial" 1 = .error "connection refused" ∧
    redditFetch envRfail "tech" 5 = .ok [] :=
  ⟨rfl, rfl, rfl, rfl⟩

/-- C6 amended: RedditSource.fetch tolerates individual subreddit query
failures (a failing subreddit is skipped and the loop continues), always
returns normally when the source is available and the category
supported, and when every subreddit query fails it returns an empty list
rather than raising. -/
theorem C6_subreddit_failure_tolerance :
    (∀ (env : RedditEnv) (c : String) (n : Nat),
      env.initialized = true → redditCategories.contains c = true →
      isOkE (redditFetch env c n) = true)
    ∧ (∀ (env : RedditEnv) (c : String) (n per : Nat) (sub : String)
        (rest : List String) (acc : List NewsItem) (e : String),
      env.hot sub per = .error e →
      redditSubLoop env c n per (sub :: rest) acc = redditSubLoop env c n per rest acc)
    ∧ (∀ (env : RedditEnv) (c : String) (n : Nat),
      env.initialized = true → redditCategories.contains c = true →
      (∀ sub ∈ lookupD subredditMap c ([] : List String), ∀ k : Nat,
        isOkE (env.hot sub k) = false) →
      redditFetch env c n = .ok []) := by
  refine ⟨?_, ?_, ?_⟩
  · intro env c n hinit hcat
    have hmem : c ∈ redditCategories := by simpa using hcat
    unfold redditFetch
    rw [if_neg (by simp [hmem]), if_neg (by simp [redditIsAvailable, hinit])]
    cases hs : lookupD subredditMap c ([] : List String) with
    | nil => rfl
    | cons a t => rfl
  · intro env c n per sub rest acc e h
    exact redditSubLoop_skip env c n per sub rest acc e h
  · intro env c n hinit hcat hall
    have hmem : c ∈ redditCategories := by simpa using hcat
    unfold redditFetch
    rw [if_neg (by simp [hmem]), if_neg (by simp [redditIsAvailable, hinit])]
    cases hs : lookupD subredditMap c ([] : List String) with
    | nil => rfl
    | cons a t =>
      have := redditSubLoop_allFail env c n (Nat.max 1 (n / (a :: t).length))
        (a :: t) [] (by
          intro sub hsub
          exact hall sub (hs ▸ hsub) _)
      simp only [this, List.take_nil]

/-- Witness for C6: applying the all-fail case to the failing fixture
environment yields an ordinary empty result. -/
theorem C6_subreddit_failure_tolerance_witness :
    redditFetch envRfail "tech" 7 = .ok [] :=
  C6_subreddit_failure_tolerance.2.2 envRfail "tech" 7 rfl (by decide)
    (fun sub _ k => rfl)

/-- C7 failing input: when the front-page request raises, the scraper
converts the failure into an error dict with empty items and
HackerNewsSource.fetch returns an ordinary empty list instead of raising
a fetch failure; an individual malformed row is skipped while the
remaining rows are returned. -/
theorem C7_retrieval_failure_failing_input :
    scrapeHackerNews envHfail 10 =
      { items := [], error := some ("Network error: " ++ "timeout") } ∧
    hackerNewsFetch envHfail "tech" 5 = .ok [] ∧
    (exceptItems (hackerNewsFetch envHmixed "tech" 5)).length = 2 ∧
    (exceptItems (hackerNewsFetch envHmixed "tech" 5)).map NewsItem.title = ["A", "B"] :=
  ⟨rfl, rfl, rfl, rfl⟩

/-- C8: a constructed NewsItem always has metadata present (empty map at
minimum); every item returned by the Wikipedia, Reddit, HackerNews and
Tavily fetch operations (and Tavily custom search) carries metadata and
the producing provider's name; and every item returned by
fetch_by_category over sources whose items satisfy this invariant has
metadata present and a non-empty source name. -/
theorem C8_item_invariants :
    (∀ it : NewsItem, ((postInit it).metadata).isSome = true)
    ∧ (∀ (env : WikiEnv) (c : String) (n : Nat),
        ∀ it ∈ exceptItems (wikipediaFetch env c n), providerItemInv "wikipedia" it)
    ∧ (∀ (env : RedditEnv) (c : String) (n : Nat),
        ∀ it ∈ exceptItems (redditFetch env c n), providerItemInv "reddit" it)
    ∧ (∀ (env : HNEnv) (c : String) (n : Nat),
        ∀ it ∈ exceptItems (hackerNewsFetch env c n), providerItemInv "hackernews" it)
    ∧ (∀ (env : TavilyEnv) (c : String) (n : Nat) (topic : String),
        ∀ it ∈ exceptItems (tavilyFetch env c n topic), providerItemInv "tavily" it)
    ∧ (∀ (env : TavilyEnv) (q : String) (n : Nat) (topic : String),
        ∀ it ∈ exceptItems (searchCustom env q n topic), providerItemInv "tavily" it)
    ∧ (∀ m : Manager, managerSourcesInv m →
        ∀ (c : String) (n : Nat) (pin : Option String) (r : FetchResult),
        m.fetchByCategory c n pin = .ok r →
        ∀ it ∈ r.items, it.metadata.isSome = true ∧ ¬ (it.source_name = "")) := by
  refine ⟨?_, ?_, ?_, ?_, ?_, ?_, ?_⟩
  · intro it
    unfold postInit
    cases h : it.metadata with
    | none => simp
    | some md => simp [h]
  · exact wikipediaFetch_inv
  · exact redditFetch_inv
  · exact hackerNewsFetch_inv
  · exact tavilyFetch_inv
  · exact searchCustom_inv
  · exact manager_items_inv

/-- Witness for C8: the item returned through the fixture manager has
metadata present and a non-empty source name. -/
theorem C8_item_invariants_witness :
    item1.metadata.isSome = true ∧ ¬ (item1.source_name = "") := by
  have hm : managerSourcesInv m1 := by
    intro s hs
    have hs2 : s = srcA ∨ s = srcB := by simpa [m1] using hs
    rcases hs2 with rfl | rfl
    · refine ⟨by simp [srcA], ?_⟩
      intro c n its h
      exact absurd h (by simp [srcA])
    · refine ⟨by simp [srcB], ?_⟩
      intro c n its h it hit
      have : its = [item1] := (Except.ok.inj h).symm
      rw [this] at hit
      rw [List.mem_singleton.mp hit]
      exact ⟨rfl, rfl⟩
  exact C8_item_invariants.2.2.2.2.2.2 m1 hm "tech" 5 none
    { items := [item1], diag := .autoOk "beta" } rfl item1 (by simp)

/-- C9: for every query and max-results value, the search_news tool
against a Tavily provider with no API key configured returns an empty
item list with an explanatory error value and no exception escapes. -/
theorem C9_search_unavailable (env : TavilyEnv) (q : String) (n : Nat)
    (hkey : env.hasApiKey = false) :
    searchNews env q n =
      { items := [], query := q, count := 0,
        error := some "Tavily search is not available (missing API key)" } := by
  have hav : tavilyIsAvailable env = false := by
    simp [tavilyIsAvailable, tavilyInitialized, hkey]
  simp [searchNews, searchNewsBody, hav]

/-- Witness for C9: the keyless fixture environment produces the empty
result with the explanatory error. -/
theorem C9_search_unavailable_witness :
    searchNews envT0 "quantum computing" 3 =
      { items := [], query := "quantum computing", count := 0,
        error := some "Tavily search is not available (missing API key)" } :=
  C9_search_unavailable envT0 "quantum computing" 3 rfl

/-- C10: every source registered by _load_sources was available at load
time; a variant whose construction raises is omitted without failing the
load; and reaching the pinned-path source-unavailable branch on a
manager built by _load_sources implies the pinned source was available
at load time and is unavailable at call time. -/
theorem C10_load_availability :
    (∀ (outs : List LoadOutcome) (s : MSource), s ∈ loadSources outs → s.availLoad = true)
    ∧ (∀ (e : String) (rest : List LoadOutcome),
        loadSources (.ctorRaises e :: rest) = loadSources rest)
    ∧ (∀ (outs : List LoadOutcome) (prio : List String) (c : String) (n : Nat)
        (name : String),
        (Manager.mk (loadSources outs) prio).fetchByCategory c n (some name) =
          .ok { items := [], diag := .sourceUnavailable name } →
        ∃ s, (Manager.mk (loadSources outs) prio).find name = some s ∧
          s.availLoad = true ∧ s.availCall = false) := by
  refine ⟨?_, ?_, ?_⟩
  · exact loadSources_availLoad
  · intro e rest
    rfl
  · intro outs prio c n name hres
    set m := Manager.mk (loadSources outs) prio with hm
    unfold Manager.fetchByCategory at hres
    dsimp only at hres
    by_cases hname : name = ""
    · rw [if_pos hname] at hres
      have : (m.autoPath c n).diag = .sourceUnavailable name := by
        have := Except.ok.inj hres
        rw [this]
      exact absurd this (autoPath_diag m c n name)
    · rw [if_neg hname] at hres
      cases hf : m.find name with
      | none =>
        rw [hf] at hres
        dsimp only at hres
        have := Except.ok.inj hres
        exact absurd (congrArg FetchResult.diag this) (by simp)
      | some s =>
        rw [hf] at hres
        dsimp only at hres
        by_cases hav : s.availCall = true
        · rw [if_neg (by simp [hav])] at hres
          by_cases hcat : s.cats.contains c = true
          · rw [if_neg (by simpa using hcat)] at hres
            cases hfe : s.fetchFn c n with
            | ok items =>
              rw [hfe] at hres
              have := Except.ok.inj hres
              exact absurd (congrArg FetchResult.diag this) (by simp)
            | error e =>
              rw [hfe] at hres
              have := Except.ok.inj hres
              exact absurd (congrArg FetchResult.diag this) (by simp)
          · rw [if_pos (by simpa using hcat)] at hres
            have := Except.ok.inj hres
            exact absurd (congrArg FetchResult.diag this) (by simp)
        · rw [if_pos (by simp [hav])] at hres
          refine ⟨s, rfl, ?_, by simpa using hav⟩
          have hsmem : s ∈ loadSources outs := List.mem_of_find?_eq_some hf
          exact loadSources_availLoad outs s hsmem

/-- Witness for C10: the fixture source registered as available but
unavailable at call time triggers the source-unavailable branch and the
theorem recovers its load-time availability. -/
theorem C10_load_availability_witness :
    (Manager.mk (loadSources outs0) []).find "delta" = some srcDrop ∧
    srcDrop.availLoad = true ∧ srcDrop.availCall = false := by
  obtain ⟨s, hf, hl, hc⟩ := C10_load_availability.2.2 outs0 [] "tech" 1 "delta" rfl
  have h2 : (Manager.mk (loadSources outs0) []).find "delta" = some srcDrop := rfl
  have hs : s = srcDrop := Option.some.inj (hf.symm.trans h2)
  subst hs
  exact ⟨hf, hl, hc⟩

end NewsCore
